import Mathlib

/-!
Shallow embedding of `engineio-server/src/socket.rs` (the per-session socket
core of an engine.io style server) and proofs about its behaviour.

Modelling conventions:
* tokio bounded mpsc channels become an explicit `BChan` state (buffer, capacity,
  closed flag).  `send` on a channel with a full buffer suspends the sender, so
  channel operations return a `ChanSendRes`; socket operations that can suspend
  or panic return an `AsyncStep` outcome (`done` / `blocked` / `panicked`),
  describing the immediate outcome of the awaited call on the given state.
* `tokio::sync::Mutex` consumer locks become boolean `rxLockHeld` /
  `pongLockHeld` flags on the socket state.
* Async methods become pure state-passing functions `Socket → outcome × Socket`.
-/

set_option autoImplicit false

namespace EngineIo

/-- Protocol packets.  Modelled from the spec: `packet.rs` is not part of the
sources at hand, and the spec lists the closed variant set as `Close`,
`Ping`/`Pong`, `Message(text)`, `Binary(bytes)` and `Noop`. -/
inductive Packet where
  | Close
  | Ping
  | Pong
  | Message (msg : String)
  | Binary (data : List Nat)
  | Noop
deriving DecidableEq

/-- `ConnectionType` from `socket.rs`: `Http` or `WebSocket`. -/
inductive ConnectionType where
  | Http
  | WebSocket
deriving DecidableEq

/-- Error kinds.  `BadPacket` and `HeartbeatTimeout` appear literally in
`socket.rs`; `QueueClosed` is the spec's name for the error produced by the
`?` conversion of a closed-channel send error (`errors.rs` is not in the
sources: modelled from the spec's error-kind list). -/
inductive Error where
  | BadPacket
  | HeartbeatTimeout
  | QueueClosed
deriving DecidableEq

/-- State of a tokio bounded mpsc channel: buffered messages, capacity, and
whether the receiving side has been dropped (channel closed). -/
structure BChan (α : Type) where
  buf : List α
  cap : Nat
  closed : Bool
deriving DecidableEq

/-- Immediate outcome of `tx.send(a).await` on a bounded channel: succeeds
when the buffer has room, suspends the sender when the buffer is full, and
errors when the channel is closed. -/
inductive ChanSendRes (α : Type) where
  | ok (c : BChan α)
  | wouldBlock
  | closedErr
deriving DecidableEq

/-- tokio `mpsc::Sender::send`: error if closed, append if there is capacity,
otherwise await a permit (suspend). -/
def chanSend {α : Type} (a : α) (c : BChan α) : ChanSendRes α :=
  if c.closed then .closedErr
  else if c.buf.length < c.cap then .ok { c with buf := c.buf ++ [a] }
  else .wouldBlock

/-- State effect of the receiver consuming one buffered message
(`rx.recv().await` completing on a non-empty buffer). -/
def chanDrop {α : Type} (c : BChan α) : BChan α :=
  { c with buf := c.buf.tail }

/-- Immediate outcome of an awaited socket operation: it completes with a
value, suspends at an `.await` point, or panics (`unwrap` / `expect`). -/
inductive AsyncStep (α : Type) where
  | done (a : α)
  | blocked
  | panicked
deriving DecidableEq

/-- Rust `ControlFlow` as used by `handle_packet`: `Break` tells the caller to
stop reading from the session, `Continue` to keep going. -/
inductive CtrlFlow (α : Type) where
  | Break (r : α)
  | Continue (r : α)
deriving DecidableEq

/-- The `Socket` struct from `socket.rs`: session id, connection type behind a
`RwLock`, the outbound packet channel (`tx` / `rx` with the receiver behind a
`Mutex`), and the pong signal channel (`pong_tx` / `pong_rx`, receiver behind
a `Mutex`).  The two `Mutex`es are modelled by the two lock flags. -/
structure Socket where
  sid : Int
  conn : ConnectionType
  queue : BChan Packet
  rxLockHeld : Bool
  pongSlot : BChan Unit
  pongLockHeld : Bool
deriving DecidableEq

/-- The handler capability (`EngineIoHandler`): message and binary entry
points, each receiving the payload and the socket and returning a result;
the handler may act on the socket through its public API, so it also returns
the updated socket state. -/
structure Handler where
  handle : String → Socket → Except Error Unit × Socket
  handleBinary : List Nat → Socket → Except Error Unit × Socket

/-- A handler that accepts every message and leaves the socket untouched. -/
def trivialHandler : Handler :=
  { handle := fun _ s => (.ok (), s), handleBinary := fun _ s => (.ok (), s) }

/-- `Socket::new`: outbound channel of capacity 100, pong channel of
capacity 1, both open, both consumer locks free. -/
def Socket.new (sid : Int) (conn : ConnectionType) : Socket :=
  { sid := sid
    conn := conn
    queue := { buf := [], cap := 100, closed := false }
    rxLockHeld := false
    pongSlot := { buf := [], cap := 1, closed := false }
    pongLockHeld := false }

/-- `Socket::send`: `self.tx.send(packet).await?`, i.e. enqueue on the
outbound channel; suspend when full, propagate a closed-channel error. -/
def Socket.send (s : Socket) (p : Packet) : AsyncStep (Except Error Unit) × Socket :=
  match chanSend p s.queue with
  | .ok q => (.done (.ok ()), { s with queue := q })
  | .wouldBlock => (.blocked, s)
  | .closedErr => (.done (.error .QueueClosed), s)

/-- `Socket::handle_packet`: dispatch one inbound packet.
`Close` sends a `Noop` and breaks with that send's result; `Pong` sends a
signal into the pong channel and unwraps (panics on a closed channel), then
continues with `Ok`; `Message` runs the handler and continues with its
result; everything else continues with `Err(BadPacket)`. -/
def Socket.handle_packet (s : Socket) (p : Packet) (h : Handler) :
    AsyncStep (CtrlFlow (Except Error Unit)) × Socket :=
  match p with
  | .Close =>
    match s.send .Noop with
    | (.done r, s') => (.done (.Break r), s')
    | (.blocked, s') => (.blocked, s')
    | (.panicked, s') => (.panicked, s')
  | .Pong =>
    match chanSend () s.pongSlot with
    | .ok c => (.done (.Continue (.ok ())), { s with pongSlot := c })
    | .wouldBlock => (.blocked, s)
    | .closedErr => (.panicked, s)
  | .Message m =>
    match h.handle m s with
    | (.ok _, s') => (.done (.Continue (.ok ())), s')
    | (.error e, s') => (.done (.Continue (.error e)), s')
  | _ => (.done (.Continue (.error .BadPacket)), s)

/-- `Socket::handle_binary`: forward to the handler's binary entry point. -/
def Socket.handle_binary (s : Socket) (data : List Nat) (h : Handler) :
    Except Error Unit × Socket :=
  h.handleBinary data s

/-- `Socket::close`: send a `Close` packet. -/
def Socket.close (s : Socket) : AsyncStep (Except Error Unit) × Socket :=
  s.send .Close

/-- `Socket::emit`: send a `Message` packet. -/
def Socket.emit (s : Socket) (msg : String) : AsyncStep (Except Error Unit) × Socket :=
  s.send (.Message msg)

/-- `Socket::emit_binary`: send a `Binary` packet. -/
def Socket.emit_binary (s : Socket) (data : List Nat) :
    AsyncStep (Except Error Unit) × Socket :=
  s.send (.Binary data)

/-- `Socket::is_ws`: read the connection type and compare to `WebSocket`. -/
def Socket.is_ws (s : Socket) : Bool :=
  s.conn = ConnectionType.WebSocket

/-- `Socket::is_http`: read the connection type and compare to `Http`. -/
def Socket.is_http (s : Socket) : Bool :=
  s.conn = ConnectionType.Http

/-- `Socket::upgrade_to_websocket`: take the write lock and set the
connection type to `WebSocket`. -/
def Socket.upgrade_to_websocket (s : Socket) : Socket :=
  { s with conn := .WebSocket }

/-- `Socket::send_blocking`: perform `send`; then, if the connection type
reads as `Http`, acquire and immediately release the outbound receiver's
`Mutex` (`let _ = self.rx.lock().await`).  If another task holds that lock
the call suspends there (after the enqueue already happened). -/
def Socket.send_blocking (s : Socket) (p : Packet) :
    AsyncStep (Except Error Unit) × Socket :=
  match s.send p with
  | (.done (.ok _), s') =>
    if s'.conn = ConnectionType.Http then
      if s'.rxLockHeld then (.blocked, s')
      else (.done (.ok ()), s')
    else (.done (.ok ()), s')
  | (.done (.error e), s') => (.done (.error e), s')
  | (.blocked, s') => (.blocked, s')
  | (.panicked, s') => (.panicked, s')

/-- Outcome of `self.pong_rx.try_lock().expect(..)` at the top of
`spawn_heartbeat`: the non-blocking `try_lock` either claims the pong
receiver's `Mutex` or fails, and `expect` turns the failure into a panic. -/
inductive ClaimRes where
  | claimed
  | panicked
deriving DecidableEq

/-- The `try_lock().expect(..)` step of `Socket::spawn_heartbeat`: panic when
the pong receiver lock is already held, otherwise take it.  `try_lock` never
suspends, so the outcome type has no blocked alternative. -/
def Socket.try_lock_pong_rx (s : Socket) : ClaimRes × Socket :=
  if s.pongLockHeld then (.panicked, s)
  else (.claimed, { s with pongLockHeld := true })

/-- Outcome of the heartbeat loop in the timing model: the task failed with
`HeartbeatTimeout` at an absolute time (pong deadline elapsed, or the `Ping`
send returned a closed-channel error which `map_err` turns into
`HeartbeatTimeout` via `?`); or it is suspended since an absolute time inside
`self.send(Packet::Ping).await` on a full outbound queue that no consumer
ever drains; or the modelled run (bounded by fuel) ended with the loop still
alive. -/
inductive HbOutcome where
  | failAt (t : Nat)
  | blockedAt (t : Nat)
  | stillRunning
deriving DecidableEq

/-- Timing model of the `loop` in `Socket::spawn_heartbeat`.  Arguments:
`T` the pong timeout, `period` the tick interval, `sched t` the arrival time
of the next pong signal for a wait starting at time `t` (`none` when no pong
ever arrives), then fuel, the current state of the outbound queue (threaded
through the loop; the model takes the producer-only view in which no
consumer drains it concurrently), the current time, and the next scheduled
tick time (tokio's `interval` fires its first tick immediately at creation
time and every `period` thereafter).  Each iteration ticks at time `tp` and
performs `self.send(Packet::Ping).await.map_err(|_| HeartbeatTimeout)?`: on a
closed outbound channel the send errors and the task fails with
`HeartbeatTimeout` right there at `tp`; on a full queue the send suspends at
`tp` (indefinitely, absent a consumer); otherwise the `Ping` is enqueued and
the task waits up to `T` for a pong — if none arrives by the deadline it
fails with `HeartbeatTimeout` at `tp + T`, else it loops.  Returns the times
at which `Ping` packets were actually sent and the outcome. -/
def hbLoop (T period : Nat) (sched : Nat → Option Nat) :
    Nat → BChan Packet → Nat → Nat → List Nat × HbOutcome
  | 0, _, _, _ => ([], .stillRunning)
  | fuel + 1, q, now, tickAt =>
    let tp := max now tickAt
    match chanSend Packet.Ping q with
    | .closedErr => ([], .failAt tp)
    | .wouldBlock => ([], .blockedAt tp)
    | .ok q' =>
      match sched tp with
      | none => ([tp], .failAt (tp + T))
      | some ta =>
        if ta ≤ tp + T then
          let rest := hbLoop T period sched fuel q' (max tp ta) (tickAt + period)
          (tp :: rest.1, rest.2)
        else ([tp], .failAt (tp + T))

/-- `Socket::spawn_heartbeat` in the timing model: claim the pong receiver
lock with `try_lock().expect(..)` (panic if already held), sleep `interval`
milliseconds, create the tick interval (first tick immediate), then run the
loop against the socket's outbound queue.  The task starts at time 0, so the
loop starts at time `interval` with its first tick due at `interval`. -/
def Socket.spawn_heartbeat (s : Socket) (interval timeout fuel : Nat)
    (sched : Nat → Option Nat) : AsyncStep (List Nat × HbOutcome) × Socket :=
  match s.try_lock_pong_rx with
  | (.panicked, s') => (.panicked, s')
  | (.claimed, s') =>
    (.done (hbLoop timeout interval sched fuel s'.queue interval interval), s')

/-- Events on the success path of `Socket::send_blocking`, in program order:
the enqueue performed by `send`, acquisition and release of the outbound
receiver's `Mutex`, and return. -/
inductive SendEvent where
  | enqueue (p : Packet)
  | acquireRxLock
  | releaseRxLock
  | ret
deriving DecidableEq

/-- Event trace of the success path of `Socket::send_blocking` as a function
of the connection type: `self.send(packet).await?` enqueues; when the
connection reads as `Http`, `let _ = self.rx.lock().await` acquires the
consumer lock and the binding immediately drops the guard; then the method
returns.  When the connection is `WebSocket` the lock is never touched. -/
def sendBlockingEvents (conn : ConnectionType) (p : Packet) : List SendEvent :=
  match conn with
  | .Http => [.enqueue p, .acquireRxLock, .releaseRxLock, .ret]
  | .WebSocket => [.enqueue p, .ret]

/-- The operations the surrounding layers may perform on a socket state:
packet/binary dispatch, the send family, upgrade, claiming the heartbeat
lock, the flush loop consuming one outbound packet, and the heartbeat
consuming one pong signal.  (`is_ws` / `is_http` are pure reads and do not
change state.) -/
inductive SocketOp where
  | dispatch (h : Handler) (p : Packet)
  | binary (h : Handler) (data : List Nat)
  | sendOp (p : Packet)
  | sendBlockingOp (p : Packet)
  | closeOp
  | emitOp (msg : String)
  | emitBinaryOp (data : List Nat)
  | upgradeOp
  | heartbeatClaimOp
  | drainOp
  | pongRecvOp

/-- State effect of one socket operation (the `Socket` component of the
corresponding method's result; `drainOp` / `pongRecvOp` are the respective
receivers consuming one buffered item). -/
def SocketOp.step : SocketOp → Socket → Socket
  | .dispatch h p, s => (s.handle_packet p h).2
  | .binary h data, s => (s.handle_binary data h).2
  | .sendOp p, s => (s.send p).2
  | .sendBlockingOp p, s => (s.send_blocking p).2
  | .closeOp, s => s.close.2
  | .emitOp msg, s => (s.emit msg).2
  | .emitBinaryOp data, s => (s.emit_binary data).2
  | .upgradeOp, s => s.upgrade_to_websocket
  | .heartbeatClaimOp, s => s.try_lock_pong_rx.2
  | .drainOp, s => { s with queue := chanDrop s.queue }
  | .pongRecvOp, s => { s with pongSlot := chanDrop s.pongSlot }

/-- A handler only acts on the socket through its public API (`close`,
`emit`, `emit_binary`), none of which writes the connection type; an
operation respects this when any handler it carries preserves `conn`. -/
def SocketOp.preservesConn : SocketOp → Prop
  | .dispatch h _ =>
      (∀ m s, ((h.handle m s).2).conn = s.conn) ∧
      (∀ d s, ((h.handleBinary d s).2).conn = s.conn)
  | .binary h _ =>
      (∀ m s, ((h.handle m s).2).conn = s.conn) ∧
      (∀ d s, ((h.handleBinary d s).2).conn = s.conn)
  | _ => True

/-- A handler only acts on the socket through its public API, none of which
drops the pong receiver; an operation respects this when any handler it
carries preserves the pong channel's closed flag. -/
def SocketOp.preservesPongOpen : SocketOp → Prop
  | .dispatch h _ =>
      (∀ m s, ((h.handle m s).2).pongSlot.closed = s.pongSlot.closed) ∧
      (∀ d s, ((h.handleBinary d s).2).pongSlot.closed = s.pongSlot.closed)
  | .binary h _ =>
      (∀ m s, ((h.handle m s).2).pongSlot.closed = s.pongSlot.closed) ∧
      (∀ d s, ((h.handleBinary d s).2).pongSlot.closed = s.pongSlot.closed)
  | _ => True

/-- Run a sequence of socket operations from a starting state. -/
def runOps (s : Socket) (ops : List SocketOp) : Socket :=
  ops.foldl (fun t op => op.step t) s

/-- Iterated `Socket::send`: whether `n` consecutive sends of `p` all
complete immediately with `Ok` (no suspension, no error). -/
def Socket.sendsOk (s : Socket) (p : Packet) : Nat → Bool
  | 0 => true
  | n + 1 =>
    match s.send p with
    | (.done (.ok _), s') => s'.sendsOk p n
    | _ => false

/-- State after `n` consecutive `Socket::send`s of `p`. -/
def Socket.sendN (s : Socket) (p : Packet) : Nat → Socket
  | 0 => s
  | n + 1 => ((s.send p).2).sendN p n

/-! Helper lemmas shared by the claim theorems. -/

theorem send_fields (s : Socket) (p : Packet) :
    ((s.send p).2).conn = s.conn ∧ ((s.send p).2).pongSlot = s.pongSlot ∧
    ((s.send p).2).pongLockHeld = s.pongLockHeld ∧
    ((s.send p).2).rxLockHeld = s.rxLockHeld := by
  unfold Socket.send
  split <;> exact ⟨rfl, rfl, rfl, rfl⟩

theorem send_blocking_state (s : Socket) (p : Packet) :
    (s.send_blocking p).2 = (s.send p).2 := by
  unfold Socket.send_blocking
  split <;> rename_i heq <;> (rw [heq]; try rfl)
  split <;> [skip; rfl]
  split <;> rfl

theorem chanSend_ok_closed {α : Type} (a : α) (c c' : BChan α)
    (h : chanSend a c = .ok c') : c'.closed = c.closed := by
  unfold chanSend at h
  split at h
  · cases h
  · split at h
    · injection h with h
      subst h
      rfl
    · cases h

theorem handle_packet_conn (s : Socket) (p : Packet) (h : Handler)
    (hh : ∀ m t, ((h.handle m t).2).conn = t.conn) :
    ((s.handle_packet p h).2).conn = s.conn := by
  cases p with
  | Close =>
    have hs := (send_fields s .Noop).1
    rcases heq : s.send .Noop with ⟨r, s'⟩
    rw [heq] at hs
    cases r <;> simp [Socket.handle_packet, heq] <;> exact hs
  | Pong =>
    cases hc : chanSend () s.pongSlot with
    | ok c => simp [Socket.handle_packet, hc]
    | wouldBlock => simp [Socket.handle_packet, hc]
    | closedErr => simp [Socket.handle_packet, hc]
  | Message m =>
    have hs := hh m s
    rcases heq : h.handle m s with ⟨r, s'⟩
    rw [heq] at hs
    cases r <;> simp [Socket.handle_packet, heq] <;> exact hs
  | Ping => rfl
  | Binary data => rfl
  | Noop => rfl

theorem handle_packet_pong_open (s : Socket) (p : Packet) (h : Handler)
    (hh : ∀ m t, ((h.handle m t).2).pongSlot.closed = t.pongSlot.closed) :
    ((s.handle_packet p h).2).pongSlot.closed = s.pongSlot.closed := by
  cases p with
  | Close =>
    have hs := (send_fields s .Noop).2.1
    rcases heq : s.send .Noop with ⟨r, s'⟩
    rw [heq] at hs
    cases r <;> simp [Socket.handle_packet, heq] <;> rw [hs]
  | Pong =>
    cases hc : chanSend () s.pongSlot with
    | ok c =>
      simp [Socket.handle_packet, hc]
      exact chanSend_ok_closed () s.pongSlot c hc
    | wouldBlock => simp [Socket.handle_packet, hc]
    | closedErr => simp [Socket.handle_packet, hc]
  | Message m =>
    have hs := hh m s
    rcases heq : h.handle m s with ⟨r, s'⟩
    rw [heq] at hs
    cases r <;> simp [Socket.handle_packet, heq] <;> exact hs
  | Ping => rfl
  | Binary data => rfl
  | Noop => rfl

/-! Claim theorems. -/

/-- C4: starting a heartbeat task claims the pong-slot consumer side with a
non-blocking `try_lock` (the outcome is always immediately `claimed` or
`panicked`, never a suspension); claiming while the lock is free succeeds and
marks it held; claiming while it is already held panics (`expect`) rather
than returning an error value; hence `spawn_heartbeat` panics when invoked
while another heartbeat task owns the slot, so at most one heartbeat task can
hold the pong slot at a time. -/
theorem heartbeat_claim_exclusive (s : Socket) :
    (s.try_lock_pong_rx.1 = .claimed ∨ s.try_lock_pong_rx.1 = .panicked) ∧
    (s.pongLockHeld = false →
      s.try_lock_pong_rx = (.claimed, { s with pongLockHeld := true }) ∧
      ∀ I T fuel sched,
        ((s.try_lock_pong_rx.2).spawn_heartbeat I T fuel sched).1 = .panicked) ∧
    (s.pongLockHeld = true →
      s.try_lock_pong_rx = (.panicked, s) ∧
      ∀ I T fuel sched, (s.spawn_heartbeat I T fuel sched).1 = .panicked) := by
  refine ⟨?_, ?_, ?_⟩
  · by_cases h : s.pongLockHeld <;> simp [Socket.try_lock_pong_rx, h]
  · intro h
    refine ⟨by simp [Socket.try_lock_pong_rx, h], ?_⟩
    intro I T fuel sched
    simp [Socket.spawn_heartbeat, Socket.try_lock_pong_rx, h]
  · intro h
    refine ⟨by simp [Socket.try_lock_pong_rx, h], ?_⟩
    intro I T fuel sched
    simp [Socket.spawn_heartbeat, Socket.try_lock_pong_rx, h]

/-- Witness for C4 at concrete states: a fresh socket's claim succeeds, and a
second heartbeat started while the first holds the slot panics; on a socket
whose pong lock is held, the claim itself panics. -/
theorem heartbeat_claim_exclusive_witness :
    (Socket.new 0 .Http).try_lock_pong_rx =
      (.claimed, { Socket.new 0 .Http with pongLockHeld := true }) ∧
    ((((Socket.new 0 .Http).try_lock_pong_rx.2).spawn_heartbeat 25 20 5
        fun _ => none).1 = .panicked) ∧
    ({ Socket.new 0 .Http with pongLockHeld := true }.try_lock_pong_rx =
      (.panicked, { Socket.new 0 .Http with pongLockHeld := true })) :=
  ⟨((heartbeat_claim_exclusive (Socket.new 0 .Http)).2.1 rfl).1,
   ((heartbeat_claim_exclusive (Socket.new 0 .Http)).2.1 rfl).2 25 20 5 (fun _ => none),
   ((heartbeat_claim_exclusive
      { Socket.new 0 .Http with pongLockHeld := true }).2.2 rfl).1⟩

/-- C5: dispatching an inbound `Close` packet sends exactly one `Noop` on the
outbound queue and returns `Break` wrapping exactly that send's result: with
an open, non-full queue the `Noop` is appended and the outcome is
`Break (Ok)`; with a closed queue nothing is enqueued and the outcome is
`Break (Err QueueClosed)`; with a full queue the dispatch suspends inside the
send (best-effort enqueue). -/
theorem close_dispatch_noop_terminate (h : Handler) (s : Socket) :
    (s.queue.closed = false → s.queue.buf.length < s.queue.cap →
      s.handle_packet .Close h =
        (.done (.Break (.ok ())),
          { s with queue := { s.queue with buf := s.queue.buf ++ [.Noop] } })) ∧
    (s.queue.closed = true →
      s.handle_packet .Close h = (.done (.Break (.error .QueueClosed)), s)) ∧
    (s.queue.closed = false → ¬ s.queue.buf.length < s.queue.cap →
      s.handle_packet .Close h = (.blocked, s)) := by
  refine ⟨?_, ?_, ?_⟩
  · intro h1 h2
    simp [Socket.handle_packet, Socket.send, chanSend, h1, h2]
  · intro h1
    simp [Socket.handle_packet, Socket.send, chanSend, h1]
  · intro h1 h2
    simp [Socket.handle_packet, Socket.send, chanSend, h1, h2]

/-- Witness for C5 at concrete states: a fresh socket (open, empty queue), a
socket with a closed queue, and a socket with a full queue. -/
theorem close_dispatch_noop_terminate_witness :
    ((Socket.new 0 .Http).handle_packet .Close trivialHandler =
      (.done (.Break (.ok ())),
        { Socket.new 0 .Http with queue := { buf := [.Noop], cap := 100, closed := false } })) ∧
    ({ Socket.new 0 .Http with
        queue := { buf := [], cap := 100, closed := true } }.handle_packet .Close
          trivialHandler =
      (.done (.Break (.error .QueueClosed)),
        { Socket.new 0 .Http with queue := { buf := [], cap := 100, closed := true } })) ∧
    ({ Socket.new 0 .Http with
        queue := { buf := List.replicate 100 .Noop, cap := 100,
                   closed := false } }.handle_packet .Close trivialHandler =
      (.blocked,
        { Socket.new 0 .Http with
            queue := { buf := List.replicate 100 .Noop, cap := 100, closed := false } })) :=
  ⟨(close_dispatch_noop_terminate trivialHandler (Socket.new 0 .Http)).1 rfl (by decide),
   (close_dispatch_noop_terminate trivialHandler
      { Socket.new 0 .Http with queue := { buf := [], cap := 100, closed := true } }).2.1 rfl,
   (close_dispatch_noop_terminate trivialHandler
      { Socket.new 0 .Http with
          queue := { buf := List.replicate 100 .Noop, cap := 100,
                     closed := false } }).2.2 rfl (by simp)⟩

/-- C9: packet dispatch breaks out of the read loop only for `Close`;
dispatching `Message(payload)` invokes the handler with the payload and this
socket and returns `Continue` wrapping the handler's result verbatim; and any
packet kind other than `Close`, `Pong` and `Message` yields
`Continue (Err BadPacket)`. -/
theorem dispatch_control_flow (h : Handler) (p : Packet) (s : Socket) :
    (∀ r s', s.handle_packet p h = (.done (.Break r), s') → p = .Close) ∧
    (∀ m, p = .Message m →
      s.handle_packet p h =
        (.done (.Continue (h.handle m s).1), (h.handle m s).2)) ∧
    (p ≠ .Close → p ≠ .Pong → (∀ m, p ≠ .Message m) →
      s.handle_packet p h = (.done (.Continue (.error .BadPacket)), s)) := by
  refine ⟨?_, ?_, ?_⟩
  · intro r s' heq
    cases p with
    | Close => rfl
    | Pong =>
      cases hc : chanSend () s.pongSlot <;>
        simp [Socket.handle_packet, hc] at heq
    | Message m =>
      rcases hm : h.handle m s with ⟨r0, s0⟩
      cases r0 <;> simp [Socket.handle_packet, hm] at heq
    | Ping => simp [Socket.handle_packet] at heq
    | Binary data => simp [Socket.handle_packet] at heq
    | Noop => simp [Socket.handle_packet] at heq
  · intro m hm
    subst hm
    rcases heq : h.handle m s with ⟨r0, s0⟩
    cases r0 <;> simp [Socket.handle_packet, heq]
  · intro h1 h2 h3
    cases p with
    | Close => exact absurd rfl h1
    | Pong => exact absurd rfl h2
    | Message m => exact absurd rfl (h3 m)
    | Ping => rfl
    | Binary data => rfl
    | Noop => rfl

/-- Witness for C9 at concrete inputs: a `Message` dispatch returns the
handler's result verbatim, and a `Ping` dispatch (a kind this dispatch logic
does not accept) returns `Continue (Err BadPacket)`. -/
theorem dispatch_control_flow_witness :
    ((Socket.new 0 .Http).handle_packet (.Message "hi") trivialHandler =
      (.done (.Continue (.ok ())), Socket.new 0 .Http)) ∧
    ((Socket.new 0 .Http).handle_packet .Ping trivialHandler =
      (.done (.Continue (.error .BadPacket)), Socket.new 0 .Http)) :=
  ⟨(dispatch_control_flow trivialHandler (.Message "hi") (Socket.new 0 .Http)).2.1 "hi" rfl,
   (dispatch_control_flow trivialHandler .Ping (Socket.new 0 .Http)).2.2
      (by intro hc; cases hc) (by intro hc; cases hc) (by intro m hc; cases hc)⟩

/-- C2: on a socket whose connection type reads as `Http`, `send_blocking`
first enqueues the packet and then does not return before acquiring the
outbound queue's consumer lock: on the success path the lock acquisition
occurs strictly after the enqueue and strictly before the return; while
another task holds the consumer lock the call stays suspended even though the
enqueue already happened; once the lock is free the call completes. -/
theorem send_blocking_http_barrier (p : Packet) (s : Socket) :
    (∃ i j k, i < j ∧ j < k ∧
      (sendBlockingEvents .Http p).get? i = some (.enqueue p) ∧
      (sendBlockingEvents .Http p).get? j = some .acquireRxLock ∧
      (sendBlockingEvents .Http p).get? k = some .ret) ∧
    (s.conn = .Http → s.rxLockHeld = true → s.queue.closed = false →
      s.queue.buf.length < s.queue.cap →
      s.send_blocking p =
        (.blocked, { s with queue := { s.queue with buf := s.queue.buf ++ [p] } })) ∧
    (s.conn = .Http → s.rxLockHeld = false → s.queue.closed = false →
      s.queue.buf.length < s.queue.cap →
      s.send_blocking p =
        (.done (.ok ()), { s with queue := { s.queue with buf := s.queue.buf ++ [p] } })) := by
  refine ⟨⟨0, 1, 3, ?_, ?_, rfl, rfl, rfl⟩, ?_, ?_⟩
  · decide
  · decide
  · intro h1 h2 h3 h4
    simp [Socket.send_blocking, Socket.send, chanSend, h1, h2, h3, h4]
  · intro h1 h2 h3 h4
    simp [Socket.send_blocking, Socket.send, chanSend, h1, h2, h3, h4]

/-- Witness for C2 at concrete states: on a fresh `Http` socket with the
consumer lock held, `send_blocking` enqueues and then stays suspended; with
the lock free it completes. -/
theorem send_blocking_http_barrier_witness :
    ({ Socket.new 0 .Http with rxLockHeld := true }.send_blocking (.Message "a") =
      (.blocked,
        { Socket.new 0 .Http with
            rxLockHeld := true
            queue := { buf := [.Message "a"], cap := 100, closed := false } })) ∧
    ((Socket.new 0 .Http).send_blocking (.Message "a") =
      (.done (.ok ()),
        { Socket.new 0 .Http with
            queue := { buf := [.Message "a"], cap := 100, closed := false } })) :=
  ⟨(send_blocking_http_barrier (.Message "a")
      { Socket.new 0 .Http with rxLockHeld := true }).2.1 rfl rfl rfl (by decide),
   (send_blocking_http_barrier (.Message "a") (Socket.new 0 .Http)).2.2
      rfl rfl rfl (by decide)⟩

/-- C7: on a socket whose connection type reads as `WebSocket`,
`send_blocking` returns as soon as the enqueue succeeds: its success-path
event trace is just the enqueue followed by the return, it never touches the
consumer lock, and the call completes for every state of the consumer lock
(in particular with no consumer ever running). -/
theorem send_blocking_ws_immediate (p : Packet) (s : Socket) :
    sendBlockingEvents .WebSocket p = [.enqueue p, .ret] ∧
    SendEvent.acquireRxLock ∉ sendBlockingEvents .WebSocket p ∧
    (s.conn = .WebSocket → s.queue.closed = false →
      s.queue.buf.length < s.queue.cap →
      s.send_blocking p =
        (.done (.ok ()), { s with queue := { s.queue with buf := s.queue.buf ++ [p] } })) := by
  refine ⟨rfl, by simp [sendBlockingEvents], ?_⟩
  intro h1 h2 h3
  simp [Socket.send_blocking, Socket.send, chanSend, h1, h2, h3]

/-- Witness for C7 at a concrete state: a `WebSocket` socket whose consumer
lock is held (no consumer ever takes the queue) still completes
`send_blocking` immediately after the enqueue. -/
theorem send_blocking_ws_immediate_witness :
    { Socket.new 0 .WebSocket with rxLockHeld := true }.send_blocking (.Message "a") =
      (.done (.ok ()),
        { Socket.new 0 .WebSocket with
            rxLockHeld := true
            queue := { buf := [.Message "a"], cap := 100, closed := false } }) :=
  (send_blocking_ws_immediate (.Message "a")
      { Socket.new 0 .WebSocket with rxLockHeld := true }).2.2 rfl rfl (by decide)

/-- C1 counterexample: on a fresh socket the first `Pong` dispatch completes
with `Continue (Ok)`, but the second consecutive `Pong` dispatch — with no
intervening heartbeat wait to drain the capacity-1 pong channel — suspends
the dispatcher (`pong_tx.send(()).await` waits for a permit on a full
channel), contradicting the claim that N consecutive Pong dispatches involve
no suspension. -/
theorem pong_consecutive_dispatch_blocks :
    (((Socket.new 0 .Http).handle_packet .Pong trivialHandler).1 =
      .done (.Continue (.ok ()))) ∧
    (((((Socket.new 0 .Http).handle_packet .Pong trivialHandler).2).handle_packet
      .Pong trivialHandler).1 = .blocked) :=
  ⟨rfl, rfl⟩

/-- C1 amended: dispatching `Pong` while the pong slot is empty delivers the
signal without blocking and returns `Continue (Ok)`; dispatching `Pong` while
the slot already holds an unconsumed signal suspends the dispatcher until the
heartbeat consumes the buffered signal (after which the pending delivery can
complete) — excess signals are serialized by channel backpressure, not
coalesced. -/
theorem pong_dispatch_backpressure (h : Handler) (s : Socket)
    (hopen : s.pongSlot.closed = false) (hcap : s.pongSlot.cap = 1)
    (hlen : s.pongSlot.buf.length ≤ s.pongSlot.cap) :
    (s.pongSlot.buf = [] →
      s.handle_packet .Pong h =
        (.done (.Continue (.ok ())),
          { s with pongSlot := { s.pongSlot with buf := [()] } })) ∧
    (s.pongSlot.buf ≠ [] →
      s.handle_packet .Pong h = (.blocked, s)) ∧
    (s.pongSlot.buf ≠ [] →
      ({ s with pongSlot := chanDrop s.pongSlot }.handle_packet .Pong h).1 =
        .done (.Continue (.ok ()))) := by
  refine ⟨?_, ?_, ?_⟩
  · intro hbuf
    simp [Socket.handle_packet, chanSend, hopen, hcap, hbuf]
  · intro hbuf
    have hge : 1 ≤ s.pongSlot.buf.length := List.length_pos.mpr hbuf
    have hnlt : ¬ s.pongSlot.buf.length < s.pongSlot.cap := by omega
    simp [Socket.handle_packet, chanSend, hopen, hnlt]
  · intro hbuf
    have hge : 1 ≤ s.pongSlot.buf.length := List.length_pos.mpr hbuf
    have htail : s.pongSlot.buf.tail.length = 0 := by
      have := List.length_tail s.pongSlot.buf
      omega
    simp [Socket.handle_packet, chanSend, chanDrop, hopen, hcap, htail]

/-- Witness for the amended C1 at concrete states: an empty pong slot accepts
the first signal; with the slot holding one unconsumed signal the dispatch is
suspended; after the heartbeat drains the slot the next dispatch completes. -/
theorem pong_dispatch_backpressure_witness :
    ((Socket.new 0 .Http).handle_packet .Pong trivialHandler =
      (.done (.Continue (.ok ())),
        { Socket.new 0 .Http with pongSlot := { buf := [()], cap := 1, closed := false } })) ∧
    ({ Socket.new 0 .Http with
        pongSlot := { buf := [()], cap := 1, closed := false } }.handle_packet .Pong
          trivialHandler =
      (.blocked,
        { Socket.new 0 .Http with pongSlot := { buf := [()], cap := 1, closed := false } })) ∧
    (({ { Socket.new 0 .Http with
          pongSlot := { buf := [()], cap := 1, closed := false } } with
        pongSlot := chanDrop { buf := [()], cap := 1, closed := false } }.handle_packet
          .Pong trivialHandler).1 = .done (.Continue (.ok ()))) :=
  ⟨(pong_dispatch_backpressure trivialHandler (Socket.new 0 .Http)
      rfl rfl (by decide)).1 rfl,
   (pong_dispatch_backpressure trivialHandler
      { Socket.new 0 .Http with pongSlot := { buf := [()], cap := 1, closed := false } }
      rfl rfl (by decide)).2.1 (by simp),
   (pong_dispatch_backpressure trivialHandler
      { Socket.new 0 .Http with pongSlot := { buf := [()], cap := 1, closed := false } }
      rfl rfl (by decide)).2.2 (by simp)⟩

/-- C3 counterexample: the claim quantifies over every socket, but on a
socket whose outbound channel is closed the heartbeat task's first `Ping`
send fails and `map_err(|_| HeartbeatTimeout)?` ends the task with
`HeartbeatTimeout` already at time `I = 25` — strictly before `I + T = 45` —
with no `Ping` ever sent, refuting "fails with HeartbeatTimeout at or after
I+T" (and "waits I before its first Ping probe") at this concrete input. -/
theorem heartbeat_early_timeout_on_closed_queue :
    (({ Socket.new 0 .Http with
        queue := { buf := [], cap := 100, closed := true } }).spawn_heartbeat 25 20 1
      fun _ => none).1 = .done ([], .failAt 25) ∧ 25 < 25 + 20 :=
  ⟨rfl, by decide⟩

/-- C3 amended: with no Pong ever delivered (`sched = fun _ => none`) and the
pong lock free, provided the outbound queue accepts the `Ping` probe (it is
open and not full at probe time), the heartbeat task waits `interval` before
its first `Ping` (initial grace: the single ping time is `interval`), fails
with `HeartbeatTimeout` at time `interval + timeout` from task start (hence
at or after it), and sends strictly fewer than three pings.  Otherwise the
`I + T` bound does not apply: on a closed outbound channel the task fails
with `HeartbeatTimeout` already at time `interval` with no ping sent, and on
a full queue that no consumer drains it suspends at time `interval` inside
the send and never fails. -/
theorem heartbeat_no_pong_timing (I T fuel : Nat) (s : Socket)
    (hlock : s.pongLockHeld = false) (hfuel : 1 ≤ fuel) :
    (s.queue.closed = false → s.queue.buf.length < s.queue.cap →
      ∃ pings t,
        (s.spawn_heartbeat I T fuel fun _ => none).1 = .done (pings, .failAt t) ∧
        pings = [I] ∧ I + T ≤ t ∧ pings.length < 3) ∧
    (s.queue.closed = true →
      (s.spawn_heartbeat I T fuel fun _ => none).1 = .done ([], .failAt I)) ∧
    (s.queue.closed = false → ¬ s.queue.buf.length < s.queue.cap →
      (s.spawn_heartbeat I T fuel fun _ => none).1 = .done ([], .blockedAt I)) := by
  obtain ⟨f, rfl⟩ : ∃ f, fuel = f + 1 := ⟨fuel - 1, by omega⟩
  refine ⟨?_, ?_, ?_⟩
  · intro hopen hroom
    refine ⟨[I], I + T, ?_, rfl, le_refl _, by simp⟩
    simp [Socket.spawn_heartbeat, Socket.try_lock_pong_rx, hlock, hbLoop, chanSend,
      hopen, hroom]
  · intro hclosed
    simp [Socket.spawn_heartbeat, Socket.try_lock_pong_rx, hlock, hbLoop, chanSend,
      hclosed]
  · intro hopen hfull
    simp [Socket.spawn_heartbeat, Socket.try_lock_pong_rx, hlock, hbLoop, chanSend,
      hopen, hfull]

/-- Witness for the amended C3 at concrete parameters (interval 25,
timeout 20): on a fresh socket the single ping goes out at 25 and the failure
is at 45; on a closed-queue socket the task fails already at 25 with no ping;
on a full-queue socket it is suspended at 25. -/
theorem heartbeat_no_pong_timing_witness :
    (∃ pings t,
      ((Socket.new 0 .Http).spawn_heartbeat 25 20 7 fun _ => none).1 =
        .done (pings, .failAt t) ∧
      pings = [25] ∧ 25 + 20 ≤ t ∧ pings.length < 3) ∧
    (({ Socket.new 0 .Http with
        queue := { buf := [], cap := 100, closed := true } }).spawn_heartbeat 25 20 7
      fun _ => none).1 = .done ([], .failAt 25) ∧
    (({ Socket.new 0 .Http with
        queue := { buf := List.replicate 100 .Noop, cap := 100,
                   closed := false } }).spawn_heartbeat 25 20 7
      fun _ => none).1 = .done ([], .blockedAt 25) :=
  ⟨(heartbeat_no_pong_timing 25 20 7 (Socket.new 0 .Http) rfl (by decide)).1
      rfl (by decide),
   (heartbeat_no_pong_timing 25 20 7
      { Socket.new 0 .Http with
          queue := { buf := [], cap := 100, closed := true } } rfl (by decide)).2.1 rfl,
   (heartbeat_no_pong_timing 25 20 7
      { Socket.new 0 .Http with
          queue := { buf := List.replicate 100 .Noop, cap := 100,
                     closed := false } } rfl (by decide)).2.2 rfl (by simp)⟩

theorem step_preserves_or_upgrades_conn (op : SocketOp) (s : Socket)
    (hop : op.preservesConn) :
    (op.step s).conn = s.conn ∨ (op.step s).conn = .WebSocket := by
  cases op with
  | dispatch h p => exact .inl (handle_packet_conn s p h hop.1)
  | binary h data => exact .inl (hop.2 data s)
  | sendOp p => exact .inl (send_fields s p).1
  | sendBlockingOp p =>
    left
    show ((s.send_blocking p).2).conn = s.conn
    rw [send_blocking_state]
    exact (send_fields s p).1
  | closeOp => exact .inl (send_fields s .Close).1
  | emitOp msg => exact .inl (send_fields s (.Message msg)).1
  | emitBinaryOp data => exact .inl (send_fields s (.Binary data)).1
  | upgradeOp => exact .inr rfl
  | heartbeatClaimOp =>
    left
    show ((s.try_lock_pong_rx).2).conn = s.conn
    unfold Socket.try_lock_pong_rx
    split <;> rfl
  | drainOp => exact .inl rfl
  | pongRecvOp => exact .inl rfl

theorem step_preserves_pong_open (op : SocketOp) (s : Socket)
    (hop : op.preservesPongOpen) :
    (op.step s).pongSlot.closed = s.pongSlot.closed := by
  cases op with
  | dispatch h p => exact handle_packet_pong_open s p h hop.1
  | binary h data => exact hop.2 data s
  | sendOp p => exact congrArg BChan.closed (send_fields s p).2.1
  | sendBlockingOp p =>
    show ((s.send_blocking p).2).pongSlot.closed = s.pongSlot.closed
    rw [send_blocking_state]
    exact congrArg BChan.closed (send_fields s p).2.1
  | closeOp => exact congrArg BChan.closed (send_fields s .Close).2.1
  | emitOp msg => exact congrArg BChan.closed (send_fields s (.Message msg)).2.1
  | emitBinaryOp data => exact congrArg BChan.closed (send_fields s (.Binary data)).2.1
  | upgradeOp => rfl
  | heartbeatClaimOp =>
    show ((s.try_lock_pong_rx).2).pongSlot.closed = s.pongSlot.closed
    unfold Socket.try_lock_pong_rx
    split <;> rfl
  | drainOp => rfl
  | pongRecvOp => rfl

/-- C6: after `upgrade_to_websocket` completes, `is_ws` reads `true` and
`is_http` reads `false` after every subsequent sequence of socket operations
(whose handlers, if any, act on the socket only through its public API and so
preserve the connection type), because no operation ever writes `Http` back;
and a second call to `upgrade_to_websocket` is a no-op on the state. -/
theorem upgrade_to_websocket_permanent (s : Socket) (ops : List SocketOp)
    (hops : ∀ op ∈ ops, op.preservesConn) :
    (runOps s.upgrade_to_websocket ops).is_ws = true ∧
    (runOps s.upgrade_to_websocket ops).is_http = false ∧
    s.upgrade_to_websocket.upgrade_to_websocket = s.upgrade_to_websocket := by
  have key : ∀ (l : List SocketOp) (t : Socket), (∀ op ∈ l, op.preservesConn) →
      t.conn = .WebSocket → (runOps t l).conn = .WebSocket := by
    intro l
    induction l with
    | nil => intro t _ ht; exact ht
    | cons op l ih =>
      intro t hl ht
      have hmem : op.preservesConn := hl op (by simp)
      have hstep : (op.step t).conn = .WebSocket := by
        rcases step_preserves_or_upgrades_conn op t hmem with h | h
        · rw [h]; exact ht
        · exact h
      exact ih (op.step t) (fun o ho => hl o (by simp [ho])) hstep
  have hconn := key ops s.upgrade_to_websocket hops rfl
  refine ⟨?_, ?_, rfl⟩
  · simp [Socket.is_ws, hconn]
  · simp [Socket.is_http, hconn]

/-- Witness for C6 at a concrete state and operation sequence: after
upgrading a fresh `Http` socket and then running a send, a claimed heartbeat
lock and a queue drain, the socket still reads as `WebSocket` and not as
`Http`, and a second upgrade changes nothing. -/
theorem upgrade_to_websocket_permanent_witness :
    (runOps (Socket.new 0 .Http).upgrade_to_websocket
      [.sendOp .Noop, .heartbeatClaimOp, .drainOp]).is_ws = true ∧
    (runOps (Socket.new 0 .Http).upgrade_to_websocket
      [.sendOp .Noop, .heartbeatClaimOp, .drainOp]).is_http = false ∧
    (Socket.new 0 .Http).upgrade_to_websocket.upgrade_to_websocket =
      (Socket.new 0 .Http).upgrade_to_websocket :=
  upgrade_to_websocket_permanent (Socket.new 0 .Http)
    [.sendOp .Noop, .heartbeatClaimOp, .drainOp]
    (by intro op hop
        simp only [List.mem_cons, List.not_mem_nil, or_false] at hop
        rcases hop with rfl | rfl | rfl <;> trivial)

/-- C10: starting from `Socket::new`, no socket operation ever closes the
pong channel (its receiver lives in the struct for the socket's lifetime, so
the channel stays open while the socket is alive), and consequently the panic
branch of `Pong` dispatch — `unwrap` on a send into a closed pong channel —
is unreachable on every state reachable from construction via operations
whose handlers preserve the pong channel's open state. -/
theorem pong_slot_never_closed (sid : Int) (ct : ConnectionType)
    (ops : List SocketOp) (hops : ∀ op ∈ ops, op.preservesPongOpen) :
    (runOps (Socket.new sid ct) ops).pongSlot.closed = false ∧
    ∀ h, ((runOps (Socket.new sid ct) ops).handle_packet .Pong h).1 ≠ .panicked := by
  have key : ∀ (l : List SocketOp) (t : Socket), (∀ op ∈ l, op.preservesPongOpen) →
      t.pongSlot.closed = false → (runOps t l).pongSlot.closed = false := by
    intro l
    induction l with
    | nil => intro t _ ht; exact ht
    | cons op l ih =>
      intro t hl ht
      have hstep : (op.step t).pongSlot.closed = false := by
        rw [step_preserves_pong_open op t (hl op (by simp))]
        exact ht
      exact ih (op.step t) (fun o ho => hl o (by simp [ho])) hstep
  have hopen := key ops (Socket.new sid ct) hops rfl
  refine ⟨hopen, ?_⟩
  intro h
  by_cases hlt : (runOps (Socket.new sid ct) ops).pongSlot.buf.length <
      (runOps (Socket.new sid ct) ops).pongSlot.cap <;>
    simp [Socket.handle_packet, chanSend, hopen, hlt]

/-- Witness for C10 at a concrete state and operation sequence: after a
dispatch, a send, an upgrade and a pong-slot drain on a fresh socket, the
pong channel is still open and a `Pong` dispatch does not panic. -/
theorem pong_slot_never_closed_witness :
    (runOps (Socket.new 0 .Http)
      [.dispatch trivialHandler .Pong, .sendOp .Noop, .upgradeOp,
       .pongRecvOp]).pongSlot.closed = false ∧
    ((runOps (Socket.new 0 .Http)
      [.dispatch trivialHandler .Pong, .sendOp .Noop, .upgradeOp,
       .pongRecvOp]).handle_packet .Pong trivialHandler).1 ≠ .panicked :=
  ⟨(pong_slot_never_closed 0 .Http
      [.dispatch trivialHandler .Pong, .sendOp .Noop, .upgradeOp, .pongRecvOp]
      (by intro op hop
          simp only [List.mem_cons, List.not_mem_nil, or_false] at hop
          rcases hop with rfl | rfl | rfl | rfl
          · exact ⟨fun _ _ => rfl, fun _ _ => rfl⟩
          all_goals trivial)).1,
   (pong_slot_never_closed 0 .Http
      [.dispatch trivialHandler .Pong, .sendOp .Noop, .upgradeOp, .pongRecvOp]
      (by intro op hop
          simp only [List.mem_cons, List.not_mem_nil, or_false] at hop
          rcases hop with rfl | rfl | rfl | rfl
          · exact ⟨fun _ _ => rfl, fun _ _ => rfl⟩
          all_goals trivial)).2 trivialHandler⟩

theorem sendN_spec (p : Packet) (n : Nat) : ∀ (s : Socket),
    s.queue.closed = false → s.queue.buf.length + n ≤ s.queue.cap →
    s.sendsOk p n = true ∧
    (s.sendN p n).queue.buf.length = s.queue.buf.length + n ∧
    (s.sendN p n).queue.closed = false ∧
    (s.sendN p n).queue.cap = s.queue.cap := by
  induction n with
  | zero =>
    intro s h1 _
    exact ⟨rfl, by simp [Socket.sendN], h1, rfl⟩
  | succ n ih =>
    intro s h1 h2
    have hlt : s.queue.buf.length < s.queue.cap := by omega
    have hsend : s.send p =
        (.done (.ok ()), { s with queue := { s.queue with buf := s.queue.buf ++ [p] } }) := by
      simp [Socket.send, chanSend, h1, hlt]
    have hih := ih { s with queue := { s.queue with buf := s.queue.buf ++ [p] } }
      (by simp [h1]) (by simp; omega)
    refine ⟨?_, ?_, ?_, ?_⟩
    · simp only [Socket.sendsOk, hsend]
      exact hih.1
    · simp only [Socket.sendN, hsend]
      rw [hih.2.1]
      simp
      omega
    · simp only [Socket.sendN, hsend]
      exact hih.2.2.1
    · simp only [Socket.sendN, hsend]
      rw [hih.2.2.2]

theorem send_outcome (s : Socket) (p : Packet) (h1 : s.queue.closed = false) :
    (s.queue.buf.length < s.queue.cap → (s.send p).1 = .done (.ok ())) ∧
    (¬ s.queue.buf.length < s.queue.cap → (s.send p).1 = .blocked) := by
  constructor <;> intro h2 <;> simp [Socket.send, chanSend, h1, h2]

/-- C8: the outbound queue of a freshly constructed socket has capacity 100;
for every `n ≤ 100`, `n` sequential sends from the empty queue all complete
immediately with `Ok` (no suspension); the next send after 100 of them, with
no consumer activity, suspends the caller; and once the consumer dequeues one
packet the suspended send can complete. -/
theorem outbound_queue_capacity_100 (sid : Int) (ct : ConnectionType)
    (p q : Packet) (n : Nat) (hn : n ≤ 100) :
    (Socket.new sid ct).queue.cap = 100 ∧
    (Socket.new sid ct).sendsOk p n = true ∧
    (((Socket.new sid ct).sendN p 100).send q).1 = .blocked ∧
    (({ (Socket.new sid ct).sendN p 100 with
        queue := chanDrop ((Socket.new sid ct).sendN p 100).queue }).send q).1 =
      .done (.ok ()) := by
  refine ⟨rfl, (sendN_spec p n (Socket.new sid ct) rfl (by simp [Socket.new]; omega)).1, ?_⟩
  have h100 := sendN_spec p 100 (Socket.new sid ct) rfl (by simp [Socket.new])
  generalize hX : (Socket.new sid ct).sendN p 100 = X at h100 ⊢
  obtain ⟨-, hlen, hclosed, hcap⟩ := h100
  have hlenv : X.queue.buf.length = 100 := by rw [hlen]; rfl
  have hcapv : X.queue.cap = 100 := by rw [hcap]; rfl
  constructor
  · exact (send_outcome X q hclosed).2 (by rw [hlenv, hcapv]; decide)
  · have hl2 : (X.queue.buf.tail).length < X.queue.cap := by
      rw [List.length_tail, hlenv, hcapv]
      decide
    exact (send_outcome { X with queue := chanDrop X.queue } q hclosed).1 hl2

/-- Witness for C8 at concrete inputs: 100 sends of `Noop` from a fresh
socket all succeed, the 101st suspends, and after one dequeue it completes. -/
theorem outbound_queue_capacity_100_witness :
    (Socket.new 0 .Http).sendsOk .Noop 100 = true ∧
    (((Socket.new 0 .Http).sendN .Noop 100).send .Noop).1 = .blocked ∧
    (({ (Socket.new 0 .Http).sendN .Noop 100 with
        queue := chanDrop ((Socket.new 0 .Http).sendN .Noop 100).queue }).send .Noop).1 =
      .done (.ok ()) :=
  ⟨(outbound_queue_capacity_100 0 .Http .Noop .Noop 100 (by decide)).2.1,
   (outbound_queue_capacity_100 0 .Http .Noop .Noop 100 (by decide)).2.2.1,
   (outbound_queue_capacity_100 0 .Http .Noop .Noop 100 (by decide)).2.2.2⟩

end EngineIo
